import Mathlib

/-!
Verification of the natural-language specification of the vex-v5-serial
host-side driver against its Rust sources, via a shallow embedding in Lean.

Each definition below is translated from a named function of the repository
(file and symbol given in its doc comment).  Bytes are modelled as `Nat`
values below 256, machine integers as `Nat`/`Int` with explicit reductions
modulo powers of two where the Rust code relies on wrapping casts, and
fallible Rust code as `Option`/`Except` values.
-/

namespace VexV5Serial

/-! ## VarU16 (src/varint.rs) -/

/-- Error type of the Encode trait; only the variant used by VarU16 is
modelled (src/varint.rs uses EncodeError VarShortTooLarge). -/
inductive EncodeError where
  | varShortTooLarge
deriving DecidableEq, Repr

/-- From src/varint.rs, VarU16 new: panics when the value is above
u16.MAX over 2 = 32767.  The panic is modelled as `none`; a successful
construction returns the wrapped value. -/
def varU16New (val : Nat) : Option Nat :=
  if val > 32767 then none else some val

/-- From src/varint.rs, the Encode implementation of VarU16: values above
32767 give the recoverable error VarShortTooLarge; values above 127 encode
as two bytes, high seven bits first with the top bit set, then the low
byte; smaller values encode as a single byte. -/
def varU16Encode (v : Nat) : Except EncodeError (List Nat) :=
  if v > 32767 then
    .error .varShortTooLarge
  else if v > 127 then
    .ok [(v >>> 8) ||| 0x80, v &&& 0xFF]
  else
    .ok [v]

/-- From src/varint.rs, the Decode implementation of VarU16: a first byte
with the top bit set means a wide value and the result is the big-endian
value of the first byte with its top bit cleared followed by the second
byte; otherwise the first byte is the value.  Missing bytes give `none`
(DecodeError UnexpectedEnd in the source). -/
def varU16Decode : List Nat → Option Nat
  | [] => none
  | first :: rest =>
    if first &&& 0x80 ≠ 0 then
      match rest with
      | [] => none
      | last :: _ => some ((first &&& 0x7F) * 256 + last)
    else
      some first

/-! ## Timestamp (src/varint.rs) -/

/-- The J2000 epoch constant of src/varint.rs: seconds between the Unix
epoch and 2000-01-01T00:00:00Z. -/
def J2000_EPOCH : Nat := 946684800

/-- Interpretation of a Rust `as i32` cast applied to an unsigned value:
the low 32 bits read as a two's-complement signed integer. -/
def toI32 (n : Nat) : Int :=
  let r : Nat := n % 2 ^ 32
  if r < 2 ^ 31 then (r : Int) else (r : Int) - 2 ^ 32

/-- From src/varint.rs, j2000_timestamp: the current duration since the
Unix epoch in milliseconds, minus J2000_EPOCH (a count of seconds), cast
to i32.  `nowMs` stands for the value of `as_millis` at the call. -/
def j2000_timestamp (nowMs : Nat) : Int :=
  toI32 (nowMs - J2000_EPOCH)

/-- Written from the claim text, for comparison with the source: the
current milliseconds since the Unix epoch minus the J2000 epoch expressed
in milliseconds, cast to i32. -/
def claimJ2000Timestamp (nowMs : Nat) : Int :=
  toI32 (nowMs - J2000_EPOCH * 1000)

/-! ## Channel switching (src/device/vexdevice.rs) -/

/-- From src/v5/meta.rs, V5ControllerChannel: PIT = 0, UPLOAD = 1. -/
inductive V5ControllerChannel where
  | pit
  | upload
deriving DecidableEq, Repr

/-- The discriminant of V5ControllerChannel used on the wire. -/
def V5ControllerChannel.byte : V5ControllerChannel → Nat
  | .pit => 0
  | .upload => 1

/-- From src/v5/meta.rs, VexProductType, flags dropped: the device
classification obtained from GetSystemVersion. -/
inductive VexProduct where
  | v5Brain
  | v5Controller
deriving DecidableEq, Repr

/-- Packets sent on the system port by the channel-switching code of
src/device/vexdevice.rs. -/
inductive SysPacket where
  | getSystemVersion
  | switchChannel (channel : Nat)
deriving DecidableEq, Repr

/-- From src/device/vexdevice.rs, VexDevice switch_channel: always sends
GetSystemVersion first (get_device_version); when the product is a
controller it then sends SwitchChannel with the requested channel byte,
defaulting to PIT when the argument is `none`; on a brain it sends
nothing further.  The returned list is the trace of sent packets. -/
def switch_channel (product : VexProduct) (channel : Option V5ControllerChannel) :
    List SysPacket :=
  SysPacket.getSystemVersion ::
    (match product with
     | .v5Controller => [SysPacket.switchChannel (channel.getD .pit).byte]
     | .v5Brain => [])

/-- The body of the closure handed to with_channel, summarised by the
trace of packets it sends and by its result. -/
structure Work (ε : Type) where
  sent : List SysPacket
  result : Except ε Unit

/-- From src/device/vexdevice.rs, VexDevice with_channel: switches to the
requested channel, runs the closure with the question-mark operator, then
switches back to PIT.  Returns the full trace of sent packets and the
overall result; the question-mark operator on the closure means the final
switch only happens when the closure succeeded. -/
def with_channel {ε : Type} (product : VexProduct) (channel : V5ControllerChannel)
    (f : Work ε) : List SysPacket × Except ε Unit :=
  let t₁ := switch_channel product (some channel)
  match f.result with
  | .error e => (t₁ ++ f.sent, .error e)
  | .ok _ => (t₁ ++ f.sent ++ switch_channel product none, .ok ())

/-- A placeholder error for a failing closure. -/
inductive WorkError where
  | failed
deriving DecidableEq, Repr

/-! ## File transfer commands (src/commands/file.rs) -/

/-- From src/packets/file.rs as used by src/commands/file.rs:
FileInitAction, Read = 1 and Write = 2. -/
inductive FileInitAction where
  | read
  | write
deriving DecidableEq, Repr

/-- From src/packets/file.rs as used by src/commands/file.rs:
FileExitAtion (sic), DoNothing = 0, RunProgram = 1, Halt = 2,
ShowRunScreen = 3. -/
inductive FileExitAtion where
  | doNothing
  | runProgram
  | halt
  | showRunScreen
deriving DecidableEq, Repr

/-- The packets sent by the file-transfer commands of src/commands/file.rs,
restricted to the fields the claims mention.  Bytes of chunk data are
`Nat` values. -/
inductive FilePacket where
  | initTransfer (operation : FileInitAction) (fileName fileType : String)
      (loadAddr : Nat) (writeFileSize : Nat)
  | linkFile (requiredFile : String)
  | writeFile (address : Nat) (chunkData : List Nat)
  | readFile (address : Nat) (size : Nat)
  | exitTransfer (action : FileExitAtion)
deriving DecidableEq, Repr

def FilePacket.isWrite : FilePacket → Bool
  | .writeFile _ _ => true
  | _ => false

def FilePacket.isRead : FilePacket → Bool
  | .readFile _ _ => true
  | _ => false

def FilePacket.isExit : FilePacket → Bool
  | .exitTransfer _ => true
  | _ => false

/-- The scripted InitFileTransfer reply of the device: its leading ACK
byte and the InitFileTransferReplyPayload fields used by
src/commands/file.rs. -/
structure InitReply where
  ack : Nat
  windowSize : Nat
  fileSize : Nat
deriving DecidableEq, Repr

/-- Errors surfaced by the command layer; only the variants the claims
mention are modelled (DeviceError in src/devices). -/
inductive DeviceError where
  | nack (code : Nat)
  | timeout
deriving DecidableEq, Repr

/-- Modelled from the spec: `try_into_inner` of the Cdc2 reply wrapper
lives in src/packets/cdc2.rs, which is not among the sources; per the
spec, every extended reply begins with a one-byte ACK code, 0x76 means
success, and any other code surfaces as the error Nack carrying that
byte, with no further decoding attempted. -/
def tryIntoInner (r : InitReply) : Except DeviceError InitReply :=
  if r.ack = 0x76 then .ok r else .error (.nack r.ack)

/-- From src/commands/file.rs, USER_PROGRAM_CHUNK_SIZE. -/
def USER_PROGRAM_CHUNK_SIZE : Nat := 4096

/-- From src/commands/file.rs, DownloadFile execute, computation of
max_chunk_size: the window size of the init reply when it is positive
and at most USER_PROGRAM_CHUNK_SIZE, and USER_PROGRAM_CHUNK_SIZE
otherwise. -/
def downloadMaxChunkSize (windowSize : Nat) : Nat :=
  if windowSize > 0 ∧ windowSize ≤ USER_PROGRAM_CHUNK_SIZE then
    windowSize
  else
    USER_PROGRAM_CHUNK_SIZE

/-- From src/commands/file.rs, UploadFile execute, computation of
max_chunk_size: as in download, but a window size that is not a multiple
of four is raised to the next multiple of four. -/
def uploadMaxChunkSize (windowSize : Nat) : Nat :=
  if windowSize > 0 ∧ windowSize ≤ USER_PROGRAM_CHUNK_SIZE then
    if windowSize % 4 ≠ 0 then
      windowSize + (4 - windowSize % 4)
    else
      windowSize
  else
    USER_PROGRAM_CHUNK_SIZE

/-- Written from the claim text, for comparison with the source: the
standard clamp of a value between a lower and an upper bound. -/
def specClamp (x lo hi : Nat) : Nat := max lo (min x hi)

/-- Written from the claim text, for comparison with the source:
rounding a value up to the next multiple of four. -/
def roundUpToMultipleOfFour (n : Nat) : Nat := (n + 3) / 4 * 4

/-- The slicing behaviour of the Rust slice method `chunks`: successive
sub-lists of length `n`, the last one possibly shorter.  The source only
calls it with a positive chunk size; `n = 0` (a panic in Rust) yields the
empty list here. -/
def listChunks (xs : List α) (n : Nat) : List (List α) :=
  if n = 0 then []
  else if xs.isEmpty then []
  else xs.take n :: listChunks (xs.drop n) n
termination_by xs.length
decreasing_by
  rename_i hn hxs
  rw [List.isEmpty_iff] at hxs
  simp only [List.length_drop]
  have hlen : 0 < xs.length := List.length_pos.mpr hxs
  omega

/-- The UploadFile command of src/commands/file.rs, restricted to the
fields its execute method uses for the sent packets. -/
structure UploadFileCmd where
  filename : String
  filetype : String
  data : List Nat
  loadAddr : Nat
  linkedFile : Option String
  afterUpload : FileExitAtion

/-- From src/commands/file.rs, UploadFile execute, write loop: one
WriteFile packet per chunk, addressed at the load address plus the byte
offset of the chunk. -/
def writePackets (loadAddr : Nat) : Nat → List (List Nat) → List FilePacket
  | _, [] => []
  | offset, c :: rest =>
    FilePacket.writeFile (loadAddr + offset) c :: writePackets loadAddr (offset + c.length) rest

/-- From src/commands/file.rs, UploadFile execute, against a scripted
device: sends InitFileTransfer, aborts with the Nack of the init reply
when its ACK is not 0x76, otherwise sends LinkFile when a linked file is
given, then one WriteFile per chunk of the data (the replies to link and
write packets are received but their contents are not inspected by the
source), and finally ExitFileTransfer with the after-upload action.
Returns the trace of sent packets and the result. -/
def uploadFileExecute (initReply : InitReply) (cmd : UploadFileCmd) :
    List FilePacket × Except DeviceError Unit :=
  let initPkt := FilePacket.initTransfer .write cmd.filename cmd.filetype
      cmd.loadAddr cmd.data.length
  match tryIntoInner initReply with
  | .error e => ([initPkt], .error e)
  | .ok resp =>
    let linkPkts := match cmd.linkedFile with
      | some lf => [FilePacket.linkFile lf]
      | none => []
    let chunkSize := uploadMaxChunkSize resp.windowSize
    let writes := writePackets cmd.loadAddr 0 (listChunks cmd.data chunkSize)
    (initPkt :: linkPkts ++ writes ++ [FilePacket.exitTransfer cmd.afterUpload], .ok ())

/-- The DownloadFile command of src/commands/file.rs, restricted to the
fields its execute method uses for the sent packets. -/
structure DownloadFileCmd where
  filename : String
  filetype : String
  size : Nat
  loadAddr : Nat

/-- From src/commands/file.rs, DownloadFile execute, read loop against a
scripted device: each iteration sends ReadFile for max_chunk_size bytes at
the load address plus the current offset; the scripted reply is either a
Nack code (the source surfaces it as the error Nack) or chunk data, the
offset advances by the returned length and the loop ends once it reaches
the advertised file size.  An exhausted script stands for a device that
stopped answering, surfaced as a timeout. -/
def downloadLoop (loadAddr chunkSize fileSize : Nat) :
    Nat → List (Except Nat (List Nat)) → List FilePacket × Except DeviceError (List Nat)
  | offset, [] => ([FilePacket.readFile (loadAddr + offset) chunkSize], .error .timeout)
  | offset, r :: rest =>
    let pkt := FilePacket.readFile (loadAddr + offset) chunkSize
    match r with
    | .error code => ([pkt], .error (.nack code))
    | .ok chunk =>
      if fileSize ≤ offset + chunk.length then
        ([pkt], .ok chunk)
      else
        let next := downloadLoop loadAddr chunkSize fileSize (offset + chunk.length) rest
        (pkt :: next.1, next.2.map (chunk ++ ·))

/-- From src/commands/file.rs, DownloadFile execute, against a scripted
device: sends InitFileTransfer with operation Read and the advertised
size, aborts with the Nack of the init reply when its ACK is not 0x76,
and otherwise runs the read loop.  The source sends no ExitFileTransfer
on the download path. -/
def downloadFileExecute (initReply : InitReply) (reads : List (Except Nat (List Nat)))
    (cmd : DownloadFileCmd) : List FilePacket × Except DeviceError (List Nat) :=
  let initPkt := FilePacket.initTransfer .read cmd.filename cmd.filetype
      cmd.loadAddr cmd.size
  match tryIntoInner initReply with
  | .error e => ([initPkt], .error e)
  | .ok resp =>
    let chunkSize := downloadMaxChunkSize resp.windowSize
    let loop := downloadLoop cmd.loadAddr chunkSize resp.fileSize 0 reads
    (initPkt :: loop.1, loop.2)

/-- The chunk data of the WriteFile packets of a trace, in order. -/
def writeChunksOf : List FilePacket → List (List Nat)
  | [] => []
  | .writeFile _ c :: rest => c :: writeChunksOf rest
  | .initTransfer _ _ _ _ _ :: rest => writeChunksOf rest
  | .linkFile _ :: rest => writeChunksOf rest
  | .readFile _ _ :: rest => writeChunksOf rest
  | .exitTransfer _ :: rest => writeChunksOf rest

/-! ## Upload program (src/commands/file.rs, UploadProgram) -/

/-- From src/commands/file.rs, COLD_START. -/
def COLD_START : Nat := 0x3800000

/-- From src/commands/file.rs, ProgramData: hot image, cold image, or
both. -/
inductive ProgramData where
  | hot (h : List Nat)
  | cold (c : List Nat)
  | both (h c : List Nat)

/-- One UploadFile session as scheduled by UploadProgram execute: the
fields of the UploadFile command it constructs. -/
structure UploadSession where
  filename : String
  filetype : String
  payload : List Nat
  loadAddr : Nat
  linkedFile : Option String
  afterUpload : FileExitAtion
deriving DecidableEq, Repr

/-- From src/commands/file.rs, UploadProgram execute: builds the base
file name from the 0-indexed slot number, uploads the INI file (its
serialised bytes are the parameter `iniBytes`; the INI serialiser is the
external serde_ini) with extension ini at COLD_START with exit action
Halt, then the cold image when present with extension bin at COLD_START
(exit action Halt when a hot image is also present, the command's
after-upload action otherwise), then the hot image when present with
extension bin at 0x07800000, linked to the base name with suffix _lib
and extension bin, with the command's after-upload action.  The result
is the ordered list of upload sessions executed. -/
def uploadProgramSessions (slot : Nat) (iniBytes : List Nat) (data : ProgramData)
    (afterUpload : FileExitAtion) : List UploadSession :=
  let baseFileName := "slot" ++ toString slot
  let iniSession : UploadSession :=
    ⟨baseFileName ++ ".ini", "ini", iniBytes, COLD_START, none, .halt⟩
  let coldHot : Option (List Nat) × Option (List Nat) :=
    match data with
    | .cold c => (some c, none)
    | .hot h => (none, some h)
    | .both h c => (some c, some h)
  let coldSessions : List UploadSession :=
    match coldHot.1 with
    | some c =>
      let after := if coldHot.2.isSome then FileExitAtion.halt else afterUpload
      [⟨baseFileName ++ ".bin", "bin", c, COLD_START, none, after⟩]
    | none => []
  let hotSessions : List UploadSession :=
    match coldHot.2 with
    | some h =>
      [⟨baseFileName ++ ".bin", "bin", h, 0x07800000,
        some (baseFileName ++ "_lib.bin"), afterUpload⟩]
    | none => []
  iniSession :: coldSessions ++ hotSessions

/-! ## File-name encoding (src/device/vexdevice.rs) -/

/-- The error of the as_ascii_str conversion used by
src/device/vexdevice.rs: a byte outside the ASCII range. -/
inductive AsciiError where
  | notAscii
deriving DecidableEq, Repr

/-- From src/device/vexdevice.rs, the name conversion loop shared by
open, execute_program_file, file_metadata_from_name and delete_file: a
24-byte array initialised to zero whose first bytes are the bytes of the
name, the copy stopping after 24 bytes. -/
def encodeFileNameBytes (name : List Nat) : List Nat :=
  (List.range 24).map fun i => name.getD i 0

/-- From src/device/vexdevice.rs: the as_ascii_str conversion applied to
the name before the copy loop; it fails only when a byte is outside the
ASCII range. -/
def asAsciiStr (name : List Nat) : Except AsciiError (List Nat) :=
  if name.all (· < 128) then .ok name else .error .notAscii

/-- From src/device/vexdevice.rs, open (and execute_program_file): the
file_name field of the request payload built from a name, combining the
ASCII check and the 24-byte copy loop. -/
def openFileNameField (name : List Nat) : Except AsciiError (List Nat) :=
  (asAsciiStr name).map encodeFileNameBytes

/-! ## Device discovery (src/devices/genericv5/mod.rs) -/

/-- From src/devices/genericv5, VexPortType. -/
inductive VexPortType where
  | system
  | user
  | controller
deriving DecidableEq, Repr

/-- From src/devices/genericv5, VexGenericSerialPort, keeping the port
name of its port_info. -/
structure VexGenericSerialPort where
  portName : String
  portType : VexPortType
deriving DecidableEq, Repr

/-- From src/devices/genericv5, VexDeviceType. -/
inductive VexDeviceType where
  | brain
  | controller
  | unknown
deriving DecidableEq, Repr

/-- From src/devices/genericv5, VexDevice: a discovered device. -/
structure VexDeviceEntry where
  systemPort : String
  userPort : Option String
  deviceType : VexDeviceType
deriving DecidableEq, Repr

/-- From src/devices/genericv5/mod.rs, find_generic_devices, on the list
of candidate ports: a System port peeks at the next port and pairs with
it into a Brain when it is a User port, otherwise it becomes an Unknown
device; a Controller port becomes a Controller device; a User port peeks
at the next port and pairs with it into a Brain when it is a System port
(that port supplying the system side), otherwise it is dropped. -/
def find_generic_devices : List VexGenericSerialPort → List VexDeviceEntry
  | [] => []
  | [p] =>
    match p.portType with
    | .system => [⟨p.portName, none, .unknown⟩]
    | .controller => [⟨p.portName, none, .controller⟩]
    | .user => []
  | p :: q :: rest =>
    match p.portType with
    | .system =>
      if q.portType = .user then
        ⟨p.portName, some q.portName, .brain⟩ :: find_generic_devices rest
      else
        ⟨p.portName, none, .unknown⟩ :: find_generic_devices (q :: rest)
    | .controller =>
      ⟨p.portName, none, .controller⟩ :: find_generic_devices (q :: rest)
    | .user =>
      if q.portType = .system then
        ⟨q.portName, some p.portName, .brain⟩ :: find_generic_devices rest
      else
        find_generic_devices (q :: rest)

/-- Written from the claim text, for comparison with the source: the
pairing rule as the claim states it.  A User port immediately following a
System port pairs with it into one Brain; a System port not immediately
followed by a User port yields an Unknown device; a User port that did
not pair with a preceding System port yields no device; a Controller
port yields a Controller device (the claim leaves controllers
untouched). -/
def claimPairing : List VexGenericSerialPort → List VexDeviceEntry
  | [] => []
  | [p] =>
    match p.portType with
    | .system => [⟨p.portName, none, .unknown⟩]
    | .controller => [⟨p.portName, none, .controller⟩]
    | .user => []
  | p :: q :: rest =>
    match p.portType with
    | .system =>
      if q.portType = .user then
        ⟨p.portName, some q.portName, .brain⟩ :: claimPairing rest
      else
        ⟨p.portName, none, .unknown⟩ :: claimPairing (q :: rest)
    | .controller =>
      ⟨p.portName, none, .controller⟩ :: claimPairing (q :: rest)
    | .user =>
      claimPairing (q :: rest)

/-! ## Helper lemmas -/

lemma and_top_bit_eq_zero : ∀ x < 128, x &&& 128 = 0 := by decide

lemma or_top_bit_small : ∀ x < 128, x ||| 128 = x + 128 := by decide

lemma add_top_and_low : ∀ x < 128, (x + 128) &&& 127 = x := by decide

lemma add_top_and_top : ∀ x < 128, (x + 128) &&& 128 = 128 := by decide

lemma shiftRight8_eq (v : Nat) : v >>> 8 = v / 256 := by
  rw [Nat.shiftRight_eq_div_pow]

lemma and255_eq_mod (v : Nat) : v &&& 255 = v % 256 := by
  have h : (255 : Nat) = 2 ^ 8 - 1 := by norm_num
  rw [h, Nat.and_pow_two_sub_one_eq_mod]

lemma encodeFileNameBytes_eq (name : List Nat) :
    encodeFileNameBytes name =
      name.take 24 ++ List.replicate (24 - min name.length 24) 0 := by
  apply List.ext_getElem?
  intro n
  have hL : (encodeFileNameBytes name)[n]? =
      if n < 24 then some (name.getD n 0) else none := by
    by_cases h24 : n < 24
    · rw [if_pos h24]
      simp [encodeFileNameBytes, List.getElem?_range h24]
    · rw [if_neg h24]
      simp only [encodeFileNameBytes]
      rw [List.getElem?_eq_none]
      simp only [List.length_map, List.length_range]
      omega
  rw [hL]
  by_cases h24 : n < 24
  · rw [if_pos h24]
    by_cases hlen : n < name.length
    · have ht : n < (name.take 24).length := by
        simp only [List.length_take]
        omega
      rw [List.getElem?_append_left ht, List.getElem?_take_of_lt h24,
        List.getElem?_eq_getElem hlen]
      simp [List.getElem?_eq_getElem hlen]
    · have ht : (name.take 24).length ≤ n := by
        simp only [List.length_take]
        omega
      rw [List.getElem?_append_right ht]
      have hrep : n - (name.take 24).length < 24 - min name.length 24 := by
        simp only [List.length_take]
        omega
      rw [List.getElem?_replicate_of_lt hrep]
      simp [List.getElem?_eq_none (by omega : name.length ≤ n)]
  · rw [if_neg h24]
    rw [List.getElem?_eq_none]
    simp only [List.length_append, List.length_take, List.length_replicate]
    omega

lemma listChunks_nil (n : Nat) : listChunks ([] : List α) n = [] := by
  rw [listChunks]
  simp

lemma listChunks_ne_nil {α : Type} {xs : List α} {n : Nat} (hn : 0 < n)
    (hxs : xs ≠ []) : listChunks xs n ≠ [] := by
  rw [listChunks]
  rw [if_neg (by omega), if_neg (by simp [hxs])]
  exact List.cons_ne_nil _ _

lemma listChunks_eq_nil_of_nil {α : Type} {xs : List α} {n : Nat} (hn : 0 < n)
    (h : listChunks xs n = []) : xs = [] := by
  by_contra hxs
  exact listChunks_ne_nil hn hxs h

lemma listChunks_dropLast_length {α : Type} (xs : List α) (n : Nat) :
    0 < n → ∀ c ∈ (listChunks xs n).dropLast, c.length = n := by
  induction xs, n using listChunks.induct with
  | case1 xs =>
    intro hn
    omega
  | case2 xs n h0 hempty =>
    intro hn c hc
    rw [listChunks, if_neg h0, if_pos hempty] at hc
    simp at hc
  | case3 xs n h0 hempty ih =>
    intro hn c hc
    rw [listChunks, if_neg h0, if_neg hempty] at hc
    by_cases hrest : listChunks (xs.drop n) n = []
    · rw [hrest] at hc
      simp at hc
    · rw [List.dropLast_cons_of_ne_nil hrest, List.mem_cons] at hc
      rcases hc with hc | hc
      · subst hc
        have hdrop : xs.drop n ≠ [] := by
          intro hd
          exact hrest (hd ▸ listChunks_nil n)
        rw [ne_eq, List.drop_eq_nil_iff] at hdrop
        simp only [List.length_take]
        omega
      · exact ih hn c hc

lemma listChunks_getLast?_length {α : Type} (xs : List α) (n : Nat) :
    0 < n → ∀ c, (listChunks xs n).getLast? = some c →
      c.length = if xs.length % n = 0 then n else xs.length % n := by
  induction xs, n using listChunks.induct with
  | case1 xs =>
    intro hn
    omega
  | case2 xs n h0 hempty =>
    intro hn c hc
    rw [listChunks, if_neg h0, if_pos hempty] at hc
    simp at hc
  | case3 xs n h0 hempty ih =>
    intro hn c hc
    have hxs : xs ≠ [] := by
      intro h
      rw [h] at hempty
      simp at hempty
    rw [listChunks, if_neg h0, if_neg hempty] at hc
    by_cases hrest : listChunks (xs.drop n) n = []
    · rw [hrest] at hc
      simp only [List.getLast?_singleton, Option.some.injEq] at hc
      subst hc
      have hdrop : xs.drop n = [] := listChunks_eq_nil_of_nil (by omega) hrest
      rw [List.drop_eq_nil_iff] at hdrop
      have hpos : 0 < xs.length := List.length_pos.mpr hxs
      simp only [List.length_take]
      rcases Nat.lt_or_ge xs.length n with hlt | hge
      · rw [if_neg (by rw [Nat.mod_eq_of_lt hlt]; omega), Nat.mod_eq_of_lt hlt]
        omega
      · have heq : xs.length = n := by omega
        rw [heq, if_pos (Nat.mod_self n)]
        omega
    · obtain ⟨d, l, hdl⟩ : ∃ d l, listChunks (xs.drop n) n = d :: l := by
        cases hr : listChunks (xs.drop n) n with
        | nil => exact absurd hr hrest
        | cons d l => exact ⟨d, l, rfl⟩
      rw [hdl, List.getLast?_cons_cons] at hc
      have hdrop : xs.drop n ≠ [] := by
        intro hd
        exact hrest (hd ▸ listChunks_nil n)
      rw [ne_eq, List.drop_eq_nil_iff] at hdrop
      have hlen : n ≤ xs.length := by omega
      have := ih (by omega) c (hdl ▸ hc)
      rw [List.length_drop] at this
      rw [Nat.mod_eq_sub_mod hlen]
      exact this

lemma writeChunksOf_append (a b : List FilePacket) :
    writeChunksOf (a ++ b) = writeChunksOf a ++ writeChunksOf b := by
  induction a with
  | nil => rfl
  | cons p rest ih => cases p <;> simp [writeChunksOf, ih]

lemma writeChunksOf_writePackets (loadAddr : Nat) :
    ∀ (chunks : List (List Nat)) (offset : Nat),
      writeChunksOf (writePackets loadAddr offset chunks) = chunks := by
  intro chunks
  induction chunks with
  | nil =>
    intro offset
    rfl
  | cons c rest ih =>
    intro offset
    simp only [writePackets, writeChunksOf]
    rw [ih]

/-! ## Claim theorems -/

/-- Claim C6: for every value in the range zero to 32767, decoding the
VarU16 encoding yields the value again; the boundary value 0x7F encodes
to the single byte 0x7F, 0x80 to the bytes 0x80 0x80, and 0x7FFF to the
bytes 0xFF 0xFF. -/
theorem varU16_roundtrip (v : Nat) (h : v ≤ 32767) :
    (∃ bs, varU16Encode v = .ok bs ∧ varU16Decode bs = some v) ∧
    varU16Encode 0x7F = .ok [0x7F] ∧
    varU16Encode 0x80 = .ok [0x80, 0x80] ∧
    varU16Encode 0x7FFF = .ok [0xFF, 0xFF] := by
  refine ⟨?_, rfl, rfl, rfl⟩
  by_cases h127 : v > 127
  · refine ⟨[(v >>> 8) ||| 0x80, v &&& 0xFF], ?_, ?_⟩
    · simp only [varU16Encode, if_neg (by omega : ¬ v > 32767), if_pos h127]
    · have hdiv : v / 256 < 128 := by omega
      have hfirst : (v >>> 8) ||| 0x80 = v / 256 + 128 := by
        rw [shiftRight8_eq]
        exact or_top_bit_small _ hdiv
      have hc : (v / 256 + 128) &&& 128 ≠ 0 := by
        rw [add_top_and_top _ hdiv]
        norm_num
      rw [hfirst, and255_eq_mod]
      simp only [varU16Decode]
      rw [if_pos hc, add_top_and_low _ hdiv]
      congr 1
      omega
  · refine ⟨[v], ?_, ?_⟩
    · simp only [varU16Encode, if_neg (by omega : ¬ v > 32767), if_neg h127]
    · have hz : v &&& 128 = 0 := and_top_bit_eq_zero v (by omega)
      simp [varU16Decode, hz]

/-- Witness for C6 at the concrete value 4660 (0x1234). -/
theorem varU16_roundtrip_witness :
    4660 ≤ 32767 ∧
    ((∃ bs, varU16Encode 4660 = .ok bs ∧ varU16Decode bs = some 4660) ∧
     varU16Encode 0x7F = .ok [0x7F] ∧
     varU16Encode 0x80 = .ok [0x80, 0x80] ∧
     varU16Encode 0x7FFF = .ok [0xFF, 0xFF]) :=
  ⟨by decide, varU16_roundtrip 4660 (by decide)⟩

/-- Claim C10: for every value above 32767, the VarU16 constructor
panics (modelled as `none`) rather than returning an error, while the
Encode implementation reports the same overflow as the recoverable
error VarShortTooLarge. -/
theorem varU16_new_panics_encode_errors (v : Nat) (h : 32767 < v) :
    varU16New v = none ∧ varU16Encode v = .error .varShortTooLarge := by
  constructor
  · simp only [varU16New, if_pos (by omega : v > 32767)]
  · simp only [varU16Encode, if_pos (by omega : v > 32767)]

/-- Witness for C10 at the concrete value 32768. -/
theorem varU16_new_panics_encode_errors_witness :
    32767 < 32768 ∧
    (varU16New 32768 = none ∧ varU16Encode 32768 = .error .varShortTooLarge) :=
  ⟨by decide, varU16_new_panics_encode_errors 32768 (by decide)⟩

/-- Claim C7 (code bug): at the instant of the J2000 epoch itself
(946684800000 milliseconds after the Unix epoch) the source subtracts
the epoch expressed in seconds from the count of milliseconds, giving
845310080, while the claimed computation subtracts the epoch expressed
in milliseconds and gives 0. -/
theorem j2000_timestamp_unit_mismatch :
    j2000_timestamp 946684800000 = 845310080 ∧
    claimJ2000Timestamp 946684800000 = 0 ∧
    j2000_timestamp 946684800000 ≠ claimJ2000Timestamp 946684800000 := by
  refine ⟨?_, ?_, ?_⟩ <;> decide

/-- Claim C1 (code bug): on a controller, with a closure that fails,
with_channel sends GetSystemVersion and SwitchChannel with the requested
channel byte 1, propagates the error, and never sends SwitchChannel with
the PIT channel byte 0; with a succeeding closure the PIT switch is
sent.  The question-mark operator after the closure call skips the
restoring switch on the error path. -/
theorem with_channel_skips_pit_restore_on_error :
    (with_channel .v5Controller .upload ⟨[], .error WorkError.failed⟩).1 =
      [SysPacket.getSystemVersion, SysPacket.switchChannel 1] ∧
    (with_channel .v5Controller .upload ⟨[], .error WorkError.failed⟩).2 =
      .error WorkError.failed ∧
    SysPacket.switchChannel 0 ∉
      (with_channel .v5Controller .upload ⟨[], .error WorkError.failed⟩).1 ∧
    SysPacket.switchChannel 0 ∈
      (with_channel .v5Controller .upload (⟨[], .ok ()⟩ : Work WorkError)).1 := by
  refine ⟨rfl, rfl, by decide, by decide⟩

/-- Claim C2 counterexample: at slot 0 with both images and after-upload
RunProgram, the sessions the source schedules use the base name slot0
(the 0-indexed slot, not slot plus one) and the exit action Halt for the
INI and cold sessions, so the session list the claim describes is not
the one executed. -/
theorem uploadProgram_claimed_sessions_counterexample :
    uploadProgramSessions 0 [7] (.both [27] [42]) .runProgram =
      [⟨"slot0.ini", "ini", [7], COLD_START, none, .halt⟩,
       ⟨"slot0.bin", "bin", [42], COLD_START, none, .halt⟩,
       ⟨"slot0.bin", "bin", [27], 0x07800000, some "slot0_lib.bin", .runProgram⟩] ∧
    uploadProgramSessions 0 [7] (.both [27] [42]) .runProgram ≠
      [⟨"slot1.ini", "ini", [7], COLD_START, none, .doNothing⟩,
       ⟨"slot1.bin", "bin", [42], COLD_START, none, .doNothing⟩,
       ⟨"slot1.bin", "bin", [27], 0x07800000, some "slot1_lib.bin", .runProgram⟩] := by
  refine ⟨rfl, by decide⟩

/-- Claim C2 as amended: for every UploadProgram command with both
images, after-upload RunProgram and slot 0, exactly three upload
sessions run in order: the INI file slot0.ini with exit action Halt,
the cold binary slot0.bin at address 0x03800000 with exit action Halt,
and the hot binary slot0.bin at address 0x07800000 linked to
slot0_lib.bin with exit action RunProgram. -/
theorem uploadProgram_both_slot0_sessions (iniBytes hot cold : List Nat) :
    uploadProgramSessions 0 iniBytes (.both hot cold) .runProgram =
      [⟨"slot0.ini", "ini", iniBytes, 0x03800000, none, .halt⟩,
       ⟨"slot0.bin", "bin", cold, 0x03800000, none, .halt⟩,
       ⟨"slot0.bin", "bin", hot, 0x07800000, some "slot0_lib.bin", .runProgram⟩] := rfl

/-- Claim C5 counterexample: a window size of zero gives chunk size 4096
in the source, while the clamp of zero to the range one to 4096 is one,
so the chunk size is not the claimed clamp. -/
theorem download_chunk_size_clamp_counterexample :
    downloadMaxChunkSize 0 = 4096 ∧
    specClamp 0 1 4096 = 1 ∧
    downloadMaxChunkSize 0 ≠ specClamp 0 1 4096 := by
  refine ⟨rfl, rfl, by decide⟩

/-- Every ReadFile packet of the download read loop requests exactly the
chunk size the loop was started with. -/
lemma downloadLoop_read_sizes (loadAddr chunkSize fileSize : Nat) :
    ∀ (reads : List (Except Nat (List Nat))) (offset : Nat),
      ∀ p ∈ (downloadLoop loadAddr chunkSize fileSize offset reads).1,
        ∀ a s, p = FilePacket.readFile a s → s = chunkSize := by
  intro reads
  induction reads with
  | nil =>
    intro offset p hp a s hps
    simp only [downloadLoop, List.mem_singleton] at hp
    subst hp
    cases hps
    rfl
  | cons r rest ih =>
    intro offset p hp a s hps
    cases r with
    | error code =>
      simp only [downloadLoop, List.mem_singleton] at hp
      subst hp
      cases hps
      rfl
    | ok chunk =>
      simp only [downloadLoop] at hp
      by_cases hdone : fileSize ≤ offset + chunk.length
      · rw [if_pos hdone] at hp
        simp only [List.mem_singleton] at hp
        subst hp
        cases hps
        rfl
      · rw [if_neg hdone] at hp
        simp only [List.mem_cons] at hp
        rcases hp with hp | hp
        · subst hp
          cases hps
          rfl
        · exact ih _ p hp a s hps

/-- Claim C5 as amended: the chunk size of a download session equals the
window size of the init reply whenever that is positive and at most
4096, and equals 4096 when the window size is zero or exceeds 4096 (for
a positive window size this agrees with the clamp to the range one to
4096); every ReadFile request of the session asks for exactly that
chunk size. -/
theorem download_chunk_size_amended (r : InitReply)
    (reads : List (Except Nat (List Nat))) (cmd : DownloadFileCmd) :
    (0 < r.windowSize → r.windowSize ≤ 4096 →
      downloadMaxChunkSize r.windowSize = r.windowSize) ∧
    (r.windowSize = 0 ∨ 4096 < r.windowSize →
      downloadMaxChunkSize r.windowSize = 4096) ∧
    (0 < r.windowSize →
      downloadMaxChunkSize r.windowSize = specClamp r.windowSize 1 4096) ∧
    (∀ p ∈ (downloadFileExecute r reads cmd).1, ∀ a s,
      p = FilePacket.readFile a s → s = downloadMaxChunkSize r.windowSize) := by
  refine ⟨?_, ?_, ?_, ?_⟩
  · intro h1 h2
    simp only [downloadMaxChunkSize, USER_PROGRAM_CHUNK_SIZE]
    rw [if_pos ⟨h1, h2⟩]
  · intro h1
    simp only [downloadMaxChunkSize, USER_PROGRAM_CHUNK_SIZE]
    rw [if_neg (by omega)]
  · intro h1
    simp only [downloadMaxChunkSize, USER_PROGRAM_CHUNK_SIZE, specClamp]
    rcases le_or_lt r.windowSize 4096 with h2 | h2
    · rw [if_pos ⟨h1, h2⟩]
      omega
    · rw [if_neg (by omega)]
      omega
  · intro p hp a s hps
    simp only [downloadFileExecute] at hp
    cases htr : tryIntoInner r with
    | error e =>
      rw [htr] at hp
      simp only [List.mem_singleton] at hp
      subst hp
      cases hps
    | ok resp =>
      rw [htr] at hp
      simp only [List.mem_cons] at hp
      rcases hp with hp | hp
      · subst hp
        cases hps
      · have hresp : resp = r := by
          simp only [tryIntoInner] at htr
          by_cases hack : r.ack = 0x76
          · rw [if_pos hack] at htr
            cases htr
            rfl
          · rw [if_neg hack] at htr
            cases htr
        subst hresp
        exact downloadLoop_read_sizes cmd.loadAddr _ _ reads 0 p hp a s hps

/-- Witness for C5 at a concrete download session with window size 4. -/
theorem download_chunk_size_amended_witness :
    0 < (4 : Nat) ∧ downloadMaxChunkSize 4 = 4 :=
  ⟨by decide,
    (download_chunk_size_amended ⟨0x76, 4, 6⟩ [] ⟨"a.bin", "bin", 6, 0⟩).1
      (by decide) (by decide)⟩

/-- Claim C3: in both upload and download sessions, an InitFileTransfer
reply whose ACK byte is not 0x76 aborts the session with the error Nack
carrying that byte; the trace of sent packets is exactly the single
InitFileTransfer request, so no WriteFile, ReadFile or ExitFileTransfer
packet is sent afterwards. -/
theorem init_nack_aborts_session (r : InitReply) (u : UploadFileCmd)
    (d : DownloadFileCmd) (reads : List (Except Nat (List Nat)))
    (h : r.ack ≠ 0x76) :
    uploadFileExecute r u =
      ([FilePacket.initTransfer .write u.filename u.filetype u.loadAddr u.data.length],
        .error (.nack r.ack)) ∧
    downloadFileExecute r reads d =
      ([FilePacket.initTransfer .read d.filename d.filetype d.loadAddr d.size],
        .error (.nack r.ack)) ∧
    (∀ p ∈ (uploadFileExecute r u).1,
      p.isWrite = false ∧ p.isRead = false ∧ p.isExit = false) ∧
    (∀ p ∈ (downloadFileExecute r reads d).1,
      p.isWrite = false ∧ p.isRead = false ∧ p.isExit = false) := by
  have htr : tryIntoInner r = .error (.nack r.ack) := by
    simp only [tryIntoInner]
    rw [if_neg h]
  refine ⟨?_, ?_, ?_, ?_⟩
  · simp only [uploadFileExecute, htr]
  · simp only [downloadFileExecute, htr]
  · intro p hp
    simp only [uploadFileExecute, htr, List.mem_singleton] at hp
    subst hp
    exact ⟨rfl, rfl, rfl⟩
  · intro p hp
    simp only [downloadFileExecute, htr, List.mem_singleton] at hp
    subst hp
    exact ⟨rfl, rfl, rfl⟩

/-- Witness for C3 at the concrete nack code 0xD2 of the spec scenario. -/
theorem init_nack_aborts_session_witness :
    (0xD2 : Nat) ≠ 0x76 ∧
    uploadFileExecute ⟨0xD2, 6, 0⟩ ⟨"a.bin", "bin", [1, 2, 3], 0, none, .doNothing⟩ =
      ([FilePacket.initTransfer .write "a.bin" "bin" 0 3], .error (.nack 0xD2)) :=
  ⟨by decide,
    (init_nack_aborts_session ⟨0xD2, 6, 0⟩ ⟨"a.bin", "bin", [1, 2, 3], 0, none, .doNothing⟩
      ⟨"b.bin", "bin", 9, 0⟩ [] (by decide)).1⟩

lemma uploadMaxChunkSize_eq_roundUp (windowSize : Nat) :
    uploadMaxChunkSize windowSize =
      roundUpToMultipleOfFour (downloadMaxChunkSize windowSize) := by
  simp only [uploadMaxChunkSize, downloadMaxChunkSize, roundUpToMultipleOfFour,
    USER_PROGRAM_CHUNK_SIZE]
  split_ifs <;> omega

lemma uploadMaxChunkSize_mod_four (windowSize : Nat) :
    uploadMaxChunkSize windowSize % 4 = 0 := by
  simp only [uploadMaxChunkSize, USER_PROGRAM_CHUNK_SIZE]
  split_ifs <;> omega

lemma uploadMaxChunkSize_pos (windowSize : Nat) :
    0 < uploadMaxChunkSize windowSize := by
  simp only [uploadMaxChunkSize, USER_PROGRAM_CHUNK_SIZE]
  split_ifs <;> omega

/-- Claim C4: in an upload session the chunk size is the download chunk
size rounded up to a multiple of four; the WriteFile packets sent carry
exactly the successive chunks of the data at that size, every chunk
before the last has exactly the chunk size (a multiple of four), and the
last chunk has the remainder of the data length modulo the chunk size,
or a full chunk when that remainder is zero. -/
theorem upload_chunks_aligned (r : InitReply) (cmd : UploadFileCmd)
    (h : r.ack = 0x76) :
    uploadMaxChunkSize r.windowSize =
      roundUpToMultipleOfFour (downloadMaxChunkSize r.windowSize) ∧
    uploadMaxChunkSize r.windowSize % 4 = 0 ∧
    writeChunksOf (uploadFileExecute r cmd).1 =
      listChunks cmd.data (uploadMaxChunkSize r.windowSize) ∧
    (∀ c ∈ (listChunks cmd.data (uploadMaxChunkSize r.windowSize)).dropLast,
      c.length = uploadMaxChunkSize r.windowSize) ∧
    (∀ c, (listChunks cmd.data (uploadMaxChunkSize r.windowSize)).getLast? = some c →
      c.length =
        if cmd.data.length % uploadMaxChunkSize r.windowSize = 0 then
          uploadMaxChunkSize r.windowSize
        else
          cmd.data.length % uploadMaxChunkSize r.windowSize) := by
  have htr : tryIntoInner r = .ok r := by
    simp only [tryIntoInner]
    rw [if_pos h]
  refine ⟨uploadMaxChunkSize_eq_roundUp _, uploadMaxChunkSize_mod_four _, ?_, ?_, ?_⟩
  · simp only [uploadFileExecute, htr]
    cases hl : cmd.linkedFile with
    | none =>
      simp only [List.append_eq, List.nil_append, writeChunksOf, writeChunksOf_append,
        writeChunksOf_writePackets, List.append_nil]
    | some lf =>
      simp only [List.append_eq, List.cons_append, List.nil_append, writeChunksOf,
        writeChunksOf_append, writeChunksOf_writePackets, List.append_nil]
  · exact listChunks_dropLast_length cmd.data _ (uploadMaxChunkSize_pos _)
  · exact listChunks_getLast?_length cmd.data _ (uploadMaxChunkSize_pos _)

/-- Witness for C4 at the concrete upload of the spec scenario: nine
data bytes against a window size of six, giving chunk size eight and
chunks of lengths eight and one. -/
theorem upload_chunks_aligned_witness :
    (0x76 : Nat) = 0x76 ∧
    writeChunksOf (uploadFileExecute ⟨0x76, 6, 0⟩
        ⟨"a.bin", "bin", [97, 98, 99, 100, 101, 102, 103, 104, 105], 0, none,
          .runProgram⟩).1 =
      listChunks [97, 98, 99, 100, 101, 102, 103, 104, 105] (uploadMaxChunkSize 6) :=
  ⟨rfl, (upload_chunks_aligned ⟨0x76, 6, 0⟩
    ⟨"a.bin", "bin", [97, 98, 99, 100, 101, 102, 103, 104, 105], 0, none,
      .runProgram⟩ rfl).2.2.1⟩

/-- Claim C8 counterexample: a thirty-byte ASCII name is not rejected by
the name encoding of open and execute_program_file; it is truncated to
its first twenty-four bytes and sent. -/
theorem long_file_name_truncated_counterexample :
    23 < (List.replicate 30 97).length ∧
    openFileNameField (List.replicate 30 97) = .ok (List.replicate 24 97) := by
  refine ⟨by decide, ?_⟩
  rfl

/-- Claim C8 as amended: the name encoding of open, execute_program_file,
file_metadata_from_name and delete_file never rejects an over-long ASCII
name; every ASCII name is encoded as its first twenty-four bytes padded
with zero bytes up to the fixed field size of twenty-four (so a name of
twenty-four bytes or more is sent truncated and without a terminating
zero byte); only a non-ASCII name is rejected. -/
theorem file_name_truncated_not_rejected (name : List Nat)
    (h : ∀ b ∈ name, b < 128) :
    openFileNameField name =
      .ok (name.take 24 ++ List.replicate (24 - min name.length 24) 0) ∧
    (∀ out, openFileNameField name = .ok out → out.length = 24) := by
  have hall : (name.all fun b => decide (b < 128)) = true := by
    rw [List.all_eq_true]
    intro x hx
    exact decide_eq_true (h x hx)
  have hok : openFileNameField name = .ok (encodeFileNameBytes name) := by
    simp only [openFileNameField, asAsciiStr]
    rw [if_pos hall]
    rfl
  constructor
  · rw [hok, encodeFileNameBytes_eq]
  · intro out hout
    rw [hok] at hout
    injection hout with hout
    subst hout
    simp [encodeFileNameBytes]

/-- Witness for C8 at the concrete two-byte ASCII name 0x68 0x69. -/
theorem file_name_truncated_not_rejected_witness :
    (∀ b ∈ ([104, 105] : List Nat), b < 128) ∧
    openFileNameField [104, 105] =
      .ok (([104, 105] : List Nat).take 24 ++
        List.replicate (24 - min ([104, 105] : List Nat).length 24) 0) :=
  ⟨by decide, (file_name_truncated_not_rejected [104, 105] (by decide)).1⟩

/-- Every Brain entry in the output of discovery comes from two adjacent
ports of the input, either a System followed by a User or a User
followed by a System, the System side supplying the system port. -/
lemma find_generic_devices_brain_sound (ports : List VexGenericSerialPort) :
    ∀ d ∈ find_generic_devices ports, d.deviceType = .brain →
      ∃ l r a b, ports = l ++ a :: b :: r ∧
        ((a.portType = .system ∧ b.portType = .user ∧
          d = ⟨a.portName, some b.portName, .brain⟩) ∨
         (a.portType = .user ∧ b.portType = .system ∧
          d = ⟨b.portName, some a.portName, .brain⟩)) := by
  induction ports using find_generic_devices.induct with
  | case1 =>
    intro d hd
    simp [find_generic_devices] at hd
  | case2 p hp =>
    intro d hd hb
    simp [find_generic_devices, hp] at hd
    subst hd
    simp at hb
  | case3 p hp =>
    intro d hd hb
    simp [find_generic_devices, hp] at hd
    subst hd
    simp at hb
  | case4 p hp =>
    intro d hd
    simp [find_generic_devices, hp] at hd
  | case5 p q rest hp hq ih =>
    intro d hd hb
    simp [find_generic_devices, hp, hq] at hd
    rcases hd with hd | hd
    · exact ⟨[], rest, p, q, by simp, Or.inl ⟨hp, hq, hd⟩⟩
    · obtain ⟨l, r, a, b, heq, hor⟩ := ih d hd hb
      exact ⟨p :: q :: l, r, a, b, by simp [heq], hor⟩
  | case6 p q rest hp hq ih =>
    intro d hd hb
    simp [find_generic_devices, hp, hq] at hd
    rcases hd with hd | hd
    · subst hd
      simp at hb
    · obtain ⟨l, r, a, b, heq, hor⟩ := ih d hd hb
      exact ⟨p :: l, r, a, b, by simp [heq], hor⟩
  | case7 p q rest hp ih =>
    intro d hd hb
    simp [find_generic_devices, hp] at hd
    rcases hd with hd | hd
    · subst hd
      simp at hb
    · obtain ⟨l, r, a, b, heq, hor⟩ := ih d hd hb
      exact ⟨p :: l, r, a, b, by simp [heq], hor⟩
  | case8 p q rest hp hq ih =>
    intro d hd hb
    simp [find_generic_devices, hp, hq] at hd
    rcases hd with hd | hd
    · exact ⟨[], rest, p, q, by simp, Or.inr ⟨hp, hq, hd⟩⟩
    · obtain ⟨l, r, a, b, heq, hor⟩ := ih d hd hb
      exact ⟨p :: q :: l, r, a, b, by simp [heq], hor⟩
  | case9 p q rest hp hq ih =>
    intro d hd hb
    simp [find_generic_devices, hp, hq] at hd
    obtain ⟨l, r, a, b, heq, hor⟩ := ih d hd hb
    exact ⟨p :: l, r, a, b, by simp [heq], hor⟩

/-- Claim C9 counterexample: on the port list User then System, the
source pairs the two into one Brain device, while the pairing rule as
claimed discards the User port and reports the System port as an
Unknown device. -/
theorem user_then_system_pairing_counterexample :
    find_generic_devices [⟨"u", .user⟩, ⟨"s", .system⟩] =
      [⟨"s", some "u", .brain⟩] ∧
    claimPairing [⟨"u", .user⟩, ⟨"s", .system⟩] = [⟨"s", none, .unknown⟩] ∧
    find_generic_devices [⟨"u", .user⟩, ⟨"s", .system⟩] ≠
      claimPairing [⟨"u", .user⟩, ⟨"s", .system⟩] := by
  refine ⟨rfl, rfl, by decide⟩

/-- Claim C9 as amended: a User port immediately following a System port
pairs with it into one Brain; a System port not immediately followed by
a User port yields an Unknown device; a User port immediately followed
by a System port also pairs into one Brain, that System port supplying
the system side; a User port that pairs in neither direction is
discarded; and every Brain device produced comes from such an adjacent
pair. -/
theorem find_generic_devices_pairing (p q : VexGenericSerialPort)
    (rest ports : List VexGenericSerialPort) :
    (p.portType = .system → q.portType = .user →
      find_generic_devices (p :: q :: rest) =
        ⟨p.portName, some q.portName, .brain⟩ :: find_generic_devices rest) ∧
    (p.portType = .system → q.portType ≠ .user →
      find_generic_devices (p :: q :: rest) =
        ⟨p.portName, none, .unknown⟩ :: find_generic_devices (q :: rest)) ∧
    (p.portType = .system →
      find_generic_devices [p] = [⟨p.portName, none, .unknown⟩]) ∧
    (p.portType = .user → q.portType = .system →
      find_generic_devices (p :: q :: rest) =
        ⟨q.portName, some p.portName, .brain⟩ :: find_generic_devices rest) ∧
    (p.portType = .user → q.portType ≠ .system →
      find_generic_devices (p :: q :: rest) = find_generic_devices (q :: rest)) ∧
    (p.portType = .user → find_generic_devices [p] = []) ∧
    (∀ d ∈ find_generic_devices ports, d.deviceType = .brain →
      ∃ l r a b, ports = l ++ a :: b :: r ∧
        ((a.portType = .system ∧ b.portType = .user ∧
          d = ⟨a.portName, some b.portName, .brain⟩) ∨
         (a.portType = .user ∧ b.portType = .system ∧
          d = ⟨b.portName, some a.portName, .brain⟩))) := by
  refine ⟨?_, ?_, ?_, ?_, ?_, ?_, find_generic_devices_brain_sound ports⟩
  · intro h1 h2
    simp [find_generic_devices, h1, h2]
  · intro h1 h2
    simp [find_generic_devices, h1, h2]
  · intro h1
    simp [find_generic_devices, h1]
  · intro h1 h2
    simp [find_generic_devices, h1, h2]
  · intro h1 h2
    simp [find_generic_devices, h1, h2]
  · intro h1
    simp [find_generic_devices, h1]

/-- Witness for C9 at the concrete port list System then User. -/
theorem find_generic_devices_pairing_witness :
    (⟨"s", .system⟩ : VexGenericSerialPort).portType = .system ∧
    find_generic_devices [⟨"s", .system⟩, ⟨"u", .user⟩] =
      ⟨"s", some "u", .brain⟩ :: find_generic_devices [] :=
  ⟨rfl, (find_generic_devices_pairing ⟨"s", .system⟩ ⟨"u", .user⟩ [] []).1 rfl rfl⟩

end VexV5Serial
